import Mathlib

/-!
Shallow embedding of the playback orchestration core of the music-player
repository (src/src/hooks/useAudioPlayer.ts), together with theorems checking
the natural-language specification against it.

Modelling conventions:
* Times, durations and volumes (JS numbers) are rationals.
* The audio engine is an external collaborator; each operation takes its
  engine replies as explicit parameters (`Option ℚ` for a play command that
  may fail or report a duration, `Bool` for ack/fail commands) and returns,
  besides the new state, the list of commands it sent to the engine.
* `Math.random()` draws are modelled by a natural-number seed `r`; the JS
  expression `arr[Math.floor(Math.random() * arr.length)]` can produce any
  element of a nonempty `arr` (index `r % arr.length`) and `undefined` for an
  empty one.
* Timestamps (`new Date().toISOString()`) are abstracted as a `now : Nat`
  parameter.
* React state updates are modelled as sequential record updates.
-/

namespace MusicPlayer


/-- Playback modes, from src/types/music.ts. -/
inductive PlaybackMode where
  | Linear
  | RepeatAll
  | RepeatOne
  | Shuffle
deriving DecidableEq, Repr

/-- The slice of a Song record the orchestration core reads: its path (the
identity used by findIndex), its optional metadata duration
(`song.metadata?.duration`), and the artwork flag. -/
structure Song where
  path : String
  metaDuration : Option ℚ
  hasArtwork : Bool
deriving DecidableEq, Repr

/-- A play-history entry (`PlayHistoryEntry` in src/types/music.ts). -/
structure PlayHistoryEntry where
  song : Song
  playedAt : Nat
  playCount : Nat
deriving DecidableEq, Repr

/-- The React state owned by useAudioPlayer (artwork state omitted; no claim
mentions it). `shuffleHistory` holds playlist indices as JS numbers, which can
be `-1` when `findIndex` misses, hence `List Int`. -/
structure PlayerState where
  playlist : List Song
  currentSong : Option Song
  isPlaying : Bool
  volume : ℚ
  currentTime : ℚ
  duration : ℚ
  playHistory : List PlayHistoryEntry
  playbackMode : PlaybackMode
  shuffleHistory : List Int
deriving DecidableEq, Repr

/-- Commands sent to the audio engine via `invoke`. -/
inductive EngineCmd where
  | playSongCmd (path : String)
  | setVolumeCmd (v : ℚ)
  | pauseCmd
  | resumeCmd
  | seekCmd (pos : ℚ)
deriving DecidableEq, Repr

/-- JS `song.metadata?.duration || songDuration`: a missing or zero (falsy)
metadata duration falls back to the engine-reported duration. -/
def jsDurOr (meta : Option ℚ) (engineDur : ℚ) : ℚ :=
  match meta with
  | some d => if d = 0 then engineDur else d
  | none => engineDur

/-- JS `playlist.findIndex(s => s.path === p)`: index of the first song with
path `p`, `-1` when there is none. -/
def findIndexPath : List Song → String → Int
  | [], _ => -1
  | s :: rest, p =>
      if s.path = p then 0
      else
        let r := findIndexPath rest p
        if r = -1 then -1 else r + 1

/-- JS `playlist[i]` for a possibly-negative index: `undefined` (none) when
out of range. -/
def listGetI (l : List Song) (i : Int) : Option Song :=
  if 0 ≤ i then l.get? i.toNat else none

/-- The history update of `addToHistory` (duplicated verbatim in the
auto-advance handler): an existing entry for the song's path is updated in
place (playCount+1, playedAt refreshed); otherwise a fresh entry is prepended
and the list truncated to 100. -/
def addToHistory (prev : List PlayHistoryEntry) (song : Song) (now : Nat) :
    List PlayHistoryEntry :=
  if prev.any (fun e => e.song.path = song.path) then
    prev.map (fun e =>
      if e.song.path = song.path then
        { e with playCount := e.playCount + 1, playedAt := now }
      else e)
  else
    (({ song := song, playedAt := now, playCount := 1 } : PlayHistoryEntry)
      :: prev).take 100

/-- The `playSong` operation. `song = none` models `playSong(undefined)` (the
`song.path` access then throws inside the try and is caught). `playResult` is
the engine's reply to `play_song` (none = rejected, some d = reported
duration); `setVolumeOk` is the reply to the subsequent `set_volume`.
Returns the new state and the engine commands issued. -/
def playSong (st : PlayerState) (song : Option Song) (playResult : Option ℚ)
    (setVolumeOk : Bool) (now : Nat) : PlayerState × List EngineCmd :=
  match song with
  | none => ({ st with currentSong := none, isPlaying := false }, [])
  | some s =>
      let st1 := { st with currentSong := some s }
      match playResult with
      | none =>
          ({ st1 with isPlaying := false }, [EngineCmd.playSongCmd s.path])
      | some engineDur =>
          let st2 := { st1 with
            duration := jsDurOr s.metaDuration engineDur,
            currentTime := 0,
            isPlaying := true }
          if setVolumeOk then
            ({ st2 with playHistory := addToHistory st2.playHistory s now },
             [EngineCmd.playSongCmd s.path,
              EngineCmd.setVolumeCmd (st.volume / 100)])
          else
            ({ st2 with isPlaying := false },
             [EngineCmd.playSongCmd s.path,
              EngineCmd.setVolumeCmd (st.volume / 100)])

/-- The `togglePlay` operation; `cmdOk` is the engine's reply to the
pause/resume command. On failure the catch block only logs: the flag is not
flipped and not forced to false. -/
def togglePlay (st : PlayerState) (cmdOk : Bool) : PlayerState × List EngineCmd :=
  match st.currentSong with
  | none => (st, [])
  | some _ =>
      let cmd := if st.isPlaying then EngineCmd.pauseCmd else EngineCmd.resumeCmd
      if cmdOk then ({ st with isPlaying := !st.isPlaying }, [cmd])
      else (st, [cmd])

/-- The candidate indices `playlist.map((_, i) => i).filter(i => !exclude.includes(i))`. -/
def availableIndicesOf (n : Nat) (exclude : List Int) : List Int :=
  ((List.range n).map Int.ofNat).filter (fun i => ! exclude.contains i)

/-- The `getRandomIndex` helper: 0 when no candidate remains, otherwise a
uniformly drawn candidate (draw `r` picks index `r % length`). -/
def getRandomIndex (pl : List Song) (exclude : List Int) (r : Nat) : Int :=
  let availableIndices := availableIndicesOf pl.length exclude
  if availableIndices.length = 0 then 0
  else (availableIndices.get? (r % availableIndices.length)).getD 0

/-- JS `arr[Math.floor(Math.random() * arr.length)]` as used directly (without
the 0-fallback of getRandomIndex) by the auto-advance handler: some element
for a nonempty list, undefined (none) for an empty one. -/
def randPick (l : List Int) (r : Nat) : Option Int :=
  if l.length = 0 then none else l.get? (r % l.length)

/-- The `nextSong` operation (manual next). `r` is the random draw used in
Shuffle mode; `playResult`, `setVolumeOk`, `now` are passed to `playSong`. -/
def nextSong (st : PlayerState) (r : Nat) (playResult : Option ℚ)
    (setVolumeOk : Bool) (now : Nat) : PlayerState × List EngineCmd :=
  match st.currentSong with
  | none => (st, [])
  | some cur =>
    if st.playlist.length = 0 then (st, [])
    else
      let currentIndex := findIndexPath st.playlist cur.path
      match st.playbackMode with
      | PlaybackMode.RepeatOne =>
          playSong st (some cur) playResult setVolumeOk now
      | PlaybackMode.Shuffle =>
          if st.playlist.length = 1 then
            playSong st (some cur) playResult setVolumeOk now
          else if (st.shuffleHistory.length : Int) ≥ (st.playlist.length : Int) - 1 then
            let st1 := { st with shuffleHistory := [currentIndex] }
            let nextIndex := getRandomIndex st.playlist [currentIndex] r
            playSong st1 (listGetI st.playlist nextIndex) playResult setVolumeOk now
          else
            let nextIndex :=
              getRandomIndex st.playlist (st.shuffleHistory ++ [currentIndex]) r
            let st1 := { st with shuffleHistory := st.shuffleHistory ++ [currentIndex] }
            playSong st1 (listGetI st.playlist nextIndex) playResult setVolumeOk now
      | PlaybackMode.RepeatAll =>
          let nextIndex := (currentIndex + 1) % (st.playlist.length : Int)
          playSong st (listGetI st.playlist nextIndex) playResult setVolumeOk now
      | PlaybackMode.Linear =>
          if currentIndex < (st.playlist.length : Int) - 1 then
            playSong st (listGetI st.playlist (currentIndex + 1)) playResult setVolumeOk now
          else (st, [])

/-- The `previousSong` operation. In Shuffle mode a nonempty shuffle stack is
popped (`slice(0,-1)`); an empty one falls back to a random pick excluding the
current index. -/
def previousSong (st : PlayerState) (r : Nat) (playResult : Option ℚ)
    (setVolumeOk : Bool) (now : Nat) : PlayerState × List EngineCmd :=
  match st.currentSong with
  | none => (st, [])
  | some cur =>
    if st.playlist.length = 0 then (st, [])
    else
      let currentIndex := findIndexPath st.playlist cur.path
      match st.playbackMode with
      | PlaybackMode.RepeatOne =>
          playSong st (some cur) playResult setVolumeOk now
      | PlaybackMode.Shuffle =>
          if st.playlist.length = 1 then
            playSong st (some cur) playResult setVolumeOk now
          else
            match st.shuffleHistory.getLast? with
            | some lastIndex =>
                let st1 := { st with shuffleHistory := st.shuffleHistory.dropLast }
                playSong st1 (listGetI st.playlist lastIndex) playResult setVolumeOk now
            | none =>
                let randomIndex := getRandomIndex st.playlist [currentIndex] r
                playSong st (listGetI st.playlist randomIndex) playResult setVolumeOk now
      | PlaybackMode.RepeatAll =>
          let previousIndex :=
            if currentIndex = 0 then (st.playlist.length : Int) - 1
            else currentIndex - 1
          playSong st (listGetI st.playlist previousIndex) playResult setVolumeOk now
      | PlaybackMode.Linear =>
          if 0 < currentIndex then
            playSong st (listGetI st.playlist (currentIndex - 1)) playResult setVolumeOk now
          else (st, [])

/-- The `handleVolumeChange` operation: stores the requested value unclamped,
then sends `newVolume / 100` to the engine; a failing engine command is caught
and changes nothing (the stored value is kept). -/
def handleVolumeChange (st : PlayerState) (newVolume : ℚ) (cmdOk : Bool) :
    PlayerState × List EngineCmd :=
  ({ st with volume := newVolume }, [EngineCmd.setVolumeCmd (newVolume / 100)])

/-- The synchronous part of the `seek` operation: the optimistic
`setCurrentTime(position)` and the seek command sent to the engine. The
deferred authoritative re-read is `seekSync`. -/
def seek (st : PlayerState) (position : ℚ) : PlayerState × List EngineCmd :=
  match st.currentSong with
  | none => (st, [])
  | some _ => ({ st with currentTime := position }, [EngineCmd.seekCmd position])

/-- The deferred authoritative re-read performed after a seek (on the success
path after a settle delay, and on the failure path immediately): overwrite
currentTime with the backend-reported time when the read succeeds. -/
def seekSync (st : PlayerState) (backendTime : Option ℚ) : PlayerState :=
  match backendTime with
  | some t => { st with currentTime := t }
  | none => st

/-- The `skipBackward` operation: clamps at 0 and delegates to seek. -/
def skipBackward (st : PlayerState) (seconds : ℚ) : PlayerState × List EngineCmd :=
  match st.currentSong with
  | none => (st, [])
  | some _ => seek st (max 0 (st.currentTime - seconds))

/-- The `skipForward` operation: clamps at the duration and delegates to seek. -/
def skipForward (st : PlayerState) (seconds : ℚ) : PlayerState × List EngineCmd :=
  match st.currentSong with
  | none => (st, [])
  | some _ => seek st (min st.duration (st.currentTime + seconds))

/-- The inline play-next block duplicated inside the auto-advance handler:
`setCurrentSong(nextSong); play_song; setDuration(meta || d); setCurrentTime(0);
setIsPlaying(true); <history update>` — unlike `playSong` it sends no
`set_volume` command. `song = none` models `playlist[nextIndex]` being
undefined (the `.path` access throws inside the try and is caught). -/
def autoPlayNext (st : PlayerState) (song : Option Song) (playResult : Option ℚ)
    (now : Nat) : PlayerState × List EngineCmd :=
  match song with
  | none => ({ st with currentSong := none, isPlaying := false }, [])
  | some s =>
      let st1 := { st with currentSong := some s }
      match playResult with
      | none =>
          ({ st1 with isPlaying := false }, [EngineCmd.playSongCmd s.path])
      | some engineDur =>
          ({ st1 with
              duration := jsDurOr s.metaDuration engineDur,
              currentTime := 0,
              isPlaying := true,
              playHistory := addToHistory st1.playHistory s now },
           [EngineCmd.playSongCmd s.path])

/-- One firing of the 100 ms polling interval (the end-of-track auto-advance
handler). The interval only exists while `isPlaying` and a current song are
set. `backendTime` is the engine's reply to `get_current_time` (none =
query failed); `r` the random draw for Shuffle; `playResult` the reply to a
`play_song` issued by the advance; `now` the timestamp for history. -/
def pollTick (st : PlayerState) (backendTime : Option ℚ) (r : Nat)
    (playResult : Option ℚ) (now : Nat) : PlayerState × List EngineCmd :=
  match st.currentSong with
  | none => (st, [])
  | some cur =>
    if !st.isPlaying then (st, [])
    else
      match backendTime with
      | none => (st, [])
      | some bt =>
        let st0 := { st with currentTime := bt }
        if 0 < st0.duration ∧ st0.duration - 1/10 ≤ bt then
          match st0.playbackMode with
          | PlaybackMode.RepeatOne =>
              match playResult with
              | some d =>
                  ({ st0 with
                      duration := jsDurOr cur.metaDuration d,
                      currentTime := 0,
                      isPlaying := true },
                   [EngineCmd.playSongCmd cur.path])
              | none =>
                  ({ st0 with isPlaying := false },
                   [EngineCmd.playSongCmd cur.path])
          | PlaybackMode.RepeatAll =>
              let currentIndex := findIndexPath st0.playlist cur.path
              let nextIndex := (currentIndex + 1) % (st0.playlist.length : Int)
              autoPlayNext st0 (listGetI st0.playlist nextIndex) playResult now
          | PlaybackMode.Shuffle =>
              let currentIndex := findIndexPath st0.playlist cur.path
              if st0.playlist.length = 1 then
                autoPlayNext st0 (listGetI st0.playlist currentIndex) playResult now
              else if (st0.shuffleHistory.length : Int) ≥ (st0.playlist.length : Int) - 1 then
                let st1 := { st0 with shuffleHistory := [currentIndex] }
                let availableIndices :=
                  ((List.range st0.playlist.length).map Int.ofNat).filter
                    (fun i => i != currentIndex)
                autoPlayNext st1
                  ((randPick availableIndices r).bind (listGetI st0.playlist))
                  playResult now
              else
                let availableIndices :=
                  ((List.range st0.playlist.length).map Int.ofNat).filter
                    (fun i => !st0.shuffleHistory.contains i && i != currentIndex)
                let st1 := { st0 with
                  shuffleHistory := st0.shuffleHistory ++ [currentIndex] }
                autoPlayNext st1
                  ((randPick availableIndices r).bind (listGetI st0.playlist))
                  playResult now
          | PlaybackMode.Linear =>
              let currentIndex := findIndexPath st0.playlist cur.path
              if currentIndex < (st0.playlist.length : Int) - 1 then
                autoPlayNext st0 (listGetI st0.playlist (currentIndex + 1)) playResult now
              else
                ({ st0 with isPlaying := false }, [])
        else (st0, [])

/-- Sample track used in concrete witnesses and counterexamples. -/
def songA : Song := { path := "a.mp3", metaDuration := none, hasArtwork := false }

/-- Second sample track. -/
def songB : Song := { path := "b.mp3", metaDuration := none, hasArtwork := false }

/-- Sample track with a declared metadata duration of 300 seconds. -/
def songC : Song := { path := "c.mp3", metaDuration := some 300, hasArtwork := false }

/-- Concrete state: two-track playlist, first track current and playing,
Linear mode, duration 200. -/
def baseState : PlayerState :=
  { playlist := [songA, songB], currentSong := some songA, isPlaying := true,
    volume := 50, currentTime := 0, duration := 200, playHistory := [],
    playbackMode := PlaybackMode.Linear, shuffleHistory := [] }

/-- Concrete state: Linear mode with the last playlist track current and playing. -/
def linearEndState : PlayerState :=
  { playlist := [songA, songB], currentSong := some songB, isPlaying := true,
    volume := 50, currentTime := 199, duration := 200, playHistory := [],
    playbackMode := PlaybackMode.Linear, shuffleHistory := [] }

/-- History entry for songA. -/
def entryA : PlayHistoryEntry := { song := songA, playedAt := 1, playCount := 3 }

/-- History entry for songB. -/
def entryB : PlayHistoryEntry := { song := songB, playedAt := 2, playCount := 1 }

/-- Concrete state for C9: one-track playlist in Shuffle mode with a stale
nonempty shuffle stack. -/
def singleShuffleState : PlayerState :=
  { playlist := [songA], currentSong := some songA, isPlaying := true,
    volume := 50, currentTime := 0, duration := 200, playHistory := [],
    playbackMode := PlaybackMode.Shuffle, shuffleHistory := [0] }

/-- Concrete RepeatAll state with the position at the end of the track. -/
def repeatAllEndState : PlayerState :=
  { playlist := [songA, songB], currentSong := some songA, isPlaying := true,
    volume := 50, currentTime := 200, duration := 200, playHistory := [],
    playbackMode := PlaybackMode.RepeatAll, shuffleHistory := [] }

/-- Concrete RepeatOne state with the position at the end of the track. -/
def repeatOneEndState : PlayerState :=
  { playlist := [songA], currentSong := some songA, isPlaying := true,
    volume := 50, currentTime := 200, duration := 200, playHistory := [],
    playbackMode := PlaybackMode.RepeatOne, shuffleHistory := [] }

/-- Concrete Linear state at the last index, position at the end of the track. -/
def linearAutoEndState : PlayerState :=
  { playlist := [songA, songB], currentSong := some songB, isPlaying := true,
    volume := 50, currentTime := 200, duration := 200, playHistory := [],
    playbackMode := PlaybackMode.Linear, shuffleHistory := [] }

/-- Concrete two-track Shuffle state with an empty shuffle stack. -/
def shuffleStartState : PlayerState :=
  { playlist := [songA, songB], currentSong := some songA, isPlaying := true,
    volume := 50, currentTime := 0, duration := 200, playHistory := [],
    playbackMode := PlaybackMode.Shuffle, shuffleHistory := [] }

/-- Iterated manual next(): the successive states produced by a sequence of
next() calls, each with its own random draw and engine replies
(draw, play reply, volume reply, timestamp). -/
def iterateNext (st : PlayerState) :
    List (Nat × Option ℚ × Bool × Nat) → List PlayerState
  | [] => []
  | p :: rest =>
      (nextSong st p.1 p.2.1 p.2.2.1 p.2.2.2).1 ::
        iterateNext (nextSong st p.1 p.2.1 p.2.2.1 p.2.2.2).1 rest

/-- The playlist index of the current track (-1 when there is none), as
computed by the hook via findIndex. -/
def currentIndexOf (st : PlayerState) : Int :=
  match st.currentSong with
  | some s => findIndexPath st.playlist s.path
  | none => -1

/-- Invariant carried along one shuffle epoch: `cs` is the chain of indices
played since the stack was last empty (in order, current index last); the
stack holds the chain minus the current index; the chain is duplicate-free
and in range; the current track is the playlist entry at the chain's last
index. -/
def ShuffleEpochInv (pl : List Song) (cs : List Int) (st : PlayerState) : Prop :=
  st.playlist = pl ∧
  st.playbackMode = PlaybackMode.Shuffle ∧
  cs.Nodup ∧
  (∀ i ∈ cs, 0 ≤ i ∧ i < (pl.length : Int)) ∧
  st.shuffleHistory = cs.dropLast ∧
  ∃ s i, cs.getLast? = some i ∧ st.currentSong = some s ∧
    pl.get? i.toNat = some s

lemma mem_availableIndicesOf {n : Nat} {ex : List Int} {i : Int} :
    i ∈ availableIndicesOf n ex ↔ 0 ≤ i ∧ i < (n : Int) ∧ i ∉ ex := by
  unfold availableIndicesOf
  simp only [List.mem_filter, List.mem_map, List.mem_range, List.contains,
    List.elem_eq_mem, Bool.not_eq_true', decide_eq_false_iff_not]
  constructor
  · rintro ⟨⟨j, hj, rfl⟩, hex⟩
    refine ⟨Int.ofNat_nonneg j, ?_, hex⟩
    simp only [Int.ofNat_eq_coe]
    exact_mod_cast hj
  · rintro ⟨h0, hn, hex⟩
    refine ⟨⟨i.toNat, by omega, ?_⟩, hex⟩
    simp only [Int.ofNat_eq_coe]
    omega

lemma rangeInts_nodup (n : Nat) : ((List.range n).map Int.ofNat).Nodup :=
  (List.nodup_range n).map (fun _ _ h => Int.ofNat.inj h)

lemma availableIndicesOf_ne_nil {n : Nat} {ex : List Int} (h : ex.length < n) :
    availableIndicesOf n ex ≠ [] := by
  intro hempty
  have hsub : ((List.range n).map Int.ofNat) ⊆ ex := by
    intro i hi
    by_contra hnot
    rcases List.mem_map.mp hi with ⟨j, hj, rfl⟩
    have hmem : (Int.ofNat j) ∈ availableIndicesOf n ex :=
      mem_availableIndicesOf.mpr
        ⟨Int.ofNat_nonneg j,
         by simp only [Int.ofNat_eq_coe]; exact_mod_cast List.mem_range.mp hj,
         hnot⟩
    rw [hempty] at hmem
    exact absurd hmem (List.not_mem_nil _)
  have hle := (List.subperm_of_subset (rangeInts_nodup n) hsub).length_le
  simp only [List.length_map, List.length_range] at hle
  omega

lemma getRandomIndex_mem (pl : List Song) (ex : List Int) (r : Nat)
    (h : availableIndicesOf pl.length ex ≠ []) :
    getRandomIndex pl ex r ∈ availableIndicesOf pl.length ex := by
  unfold getRandomIndex
  have hlen : (availableIndicesOf pl.length ex).length ≠ 0 := by
    simpa [List.length_eq_zero] using h
  simp only [if_neg hlen]
  have hlt := Nat.mod_lt r (Nat.pos_of_ne_zero hlen)
  rw [List.get?_eq_get hlt]
  exact List.get_mem _ _ _

lemma getRandomIndex_spec (pl : List Song) (ex : List Int) (r : Nat)
    (h : ex.length < pl.length) :
    0 ≤ getRandomIndex pl ex r ∧
    getRandomIndex pl ex r < (pl.length : Int) ∧
    getRandomIndex pl ex r ∉ ex :=
  mem_availableIndicesOf.mp (getRandomIndex_mem pl ex r (availableIndicesOf_ne_nil h))

lemma randPick_available_eq (pl : List Song) (ex : List Int) (r : Nat)
    (h : availableIndicesOf pl.length ex ≠ []) :
    randPick (availableIndicesOf pl.length ex) r = some (getRandomIndex pl ex r) := by
  unfold randPick getRandomIndex
  have hlen : (availableIndicesOf pl.length ex).length ≠ 0 := by
    simpa [List.length_eq_zero] using h
  simp only [if_neg hlen]
  have hlt := Nat.mod_lt r (Nat.pos_of_ne_zero hlen)
  rw [List.get?_eq_get hlt]
  rfl

lemma filter_ne_eq_available (n : Nat) (c : Int) :
    ((List.range n).map Int.ofNat).filter (fun i => i != c) =
      availableIndicesOf n [c] := by
  apply List.filter_congr
  intro i _
  simp only [List.contains, List.elem, bne]
  cases i == c <;> rfl

lemma filter_and_eq_available (n : Nat) (h : List Int) (c : Int) :
    ((List.range n).map Int.ofNat).filter (fun i => !h.contains i && i != c) =
      availableIndicesOf n (h ++ [c]) := by
  apply List.filter_congr
  intro i _
  by_cases h1 : i ∈ h <;> by_cases h2 : i = c <;>
    simp [List.contains, List.elem_eq_mem, bne, h1, h2]

lemma findIndexPath_of_get? {pl : List Song} (hnd : (pl.map Song.path).Nodup)
    {n : Nat} {s : Song} (h : pl.get? n = some s) :
    findIndexPath pl s.path = (n : Int) := by
  induction pl generalizing n with
  | nil => simp at h
  | cons a t ih =>
      have hnd2 : (∀ x ∈ t, ¬ x.path = a.path) ∧ (t.map Song.path).Nodup := by
        simpa using hnd
      cases n with
      | zero =>
          rw [show ((a :: t).get? 0) = some a from rfl] at h
          injection h with h
          subst h
          simp [findIndexPath]
      | succ m =>
          rw [show ((a :: t).get? (m+1)) = t.get? m from rfl] at h
          have hmem : s ∈ t := List.get?_mem h
          have hne : a.path ≠ s.path := fun heq => hnd2.1 s hmem heq.symm
          have ht := ih hnd2.2 h
          simp only [findIndexPath, if_neg hne, ht]
          have : ¬ ((m : Int) = -1) := by omega
          simp only [if_neg this]
          push_cast
          ring

lemma listGetI_ofNat (pl : List Song) (n : Nat) :
    listGetI pl (n : Int) = pl.get? n := by
  simp [listGetI]

lemma listGetI_isSome {pl : List Song} {i : Int} (h0 : 0 ≤ i)
    (hn : i < (pl.length : Int)) : ∃ t, listGetI pl i = some t := by
  unfold listGetI
  rw [if_pos h0]
  have hlt : i.toNat < pl.length := by omega
  exact ⟨pl.get ⟨i.toNat, hlt⟩, List.get?_eq_get hlt⟩

lemma listGetI_some_iff {pl : List Song} {i : Int} {s : Song} :
    listGetI pl i = some s ↔ 0 ≤ i ∧ pl.get? i.toNat = some s := by
  unfold listGetI
  by_cases h : 0 ≤ i
  · simp [h]
  · simp [h]

/-- The four state projections of playSong that the equivalence claims compare:
currentSong is the requested song, isPlaying records success of both commands,
the history is updated only on full success, and the shuffle stack is kept. -/
lemma playSong_proj (st : PlayerState) (so : Option Song) (pres : Option ℚ)
    (vok : Bool) (now : Nat) :
    (playSong st so pres vok now).1.currentSong = so ∧
    (playSong st so pres vok now).1.isPlaying = (so.isSome && pres.isSome && vok) ∧
    (playSong st so pres vok now).1.playHistory =
      (match so, pres with
       | some s, some _ =>
           if vok then addToHistory st.playHistory s now else st.playHistory
       | _, _ => st.playHistory) ∧
    (playSong st so pres vok now).1.shuffleHistory = st.shuffleHistory := by
  cases so <;> cases pres <;> cases vok <;> simp [playSong]

/-- playSong changes neither the playlist, the mode, nor the stored volume. -/
lemma playSong_preserves (st : PlayerState) (so : Option Song) (pres : Option ℚ)
    (vok : Bool) (now : Nat) :
    (playSong st so pres vok now).1.playlist = st.playlist ∧
    (playSong st so pres vok now).1.playbackMode = st.playbackMode ∧
    (playSong st so pres vok now).1.volume = st.volume := by
  cases so <;> cases pres <;> cases vok <;> simp [playSong]

/-- The auto-advance inline play block produces exactly the state playSong
produces when the volume command succeeds; only the issued commands differ. -/
lemma autoPlayNext_state_eq (st : PlayerState) (so : Option Song)
    (pres : Option ℚ) (now : Nat) :
    (autoPlayNext st so pres now).1 = (playSong st so pres true now).1 := by
  cases so <;> cases pres <;> rfl

/-- The auto-advance inline play block never issues a volume command. -/
lemma autoPlayNext_no_volume (st : PlayerState) (so : Option Song)
    (pres : Option ℚ) (now : Nat) (q : ℚ) :
    EngineCmd.setVolumeCmd q ∉ (autoPlayNext st so pres now).2 := by
  cases so <;> cases pres <;> simp [autoPlayNext]

/-- On a successful play command, playSong issues the play command followed by
a volume command carrying the stored volume as a fraction. -/
lemma playSong_cmds_success (st : PlayerState) (s : Song) (d : ℚ) (vok : Bool)
    (now : Nat) :
    (playSong st (some s) (some d) vok now).2 =
      [EngineCmd.playSongCmd s.path, EngineCmd.setVolumeCmd (st.volume / 100)] := by
  cases vok <;> simp [playSong]

/-- The four compared projections agree between the auto-advance inline block
and playSong (with succeeding volume command) whenever the two starting states
agree on history and shuffle stack. -/
lemma auto_manual_proj (stA stM : PlayerState) (so : Option Song)
    (pres : Option ℚ) (now : Nat)
    (hh : stA.playHistory = stM.playHistory)
    (hsh : stA.shuffleHistory = stM.shuffleHistory) :
    (autoPlayNext stA so pres now).1.currentSong =
      (playSong stM so pres true now).1.currentSong ∧
    (autoPlayNext stA so pres now).1.isPlaying =
      (playSong stM so pres true now).1.isPlaying ∧
    (autoPlayNext stA so pres now).1.playHistory =
      (playSong stM so pres true now).1.playHistory ∧
    (autoPlayNext stA so pres now).1.shuffleHistory =
      (playSong stM so pres true now).1.shuffleHistory := by
  rw [autoPlayNext_state_eq]
  have pA := playSong_proj stA so pres true now
  have pM := playSong_proj stM so pres true now
  refine ⟨pA.1.trans pM.1.symm, pA.2.1.trans pM.2.1.symm, ?_,
    pA.2.2.2.trans (hsh.trans pM.2.2.2.symm)⟩
  rw [pA.2.2.1, pM.2.2.1, hh]

/-- With at least two tracks and a nonempty shuffle stack, previousSong pops
the last pushed index and plays that playlist entry. -/
lemma previousSong_pop (st : PlayerState) (t : Song) (h : List Int) (i : Int)
    (r : Nat) (pres : Option ℚ) (vok : Bool) (now : Nat)
    (hs : st.currentSong = some t)
    (hm : st.playbackMode = PlaybackMode.Shuffle)
    (hN : 2 ≤ st.playlist.length)
    (hsh : st.shuffleHistory = h ++ [i]) :
    (previousSong st r pres vok now).1.currentSong = listGetI st.playlist i ∧
    (previousSong st r pres vok now).1.shuffleHistory = h := by
  have h0 : ¬ st.playlist.length = 0 := by omega
  have h1 : ¬ st.playlist.length = 1 := by omega
  have hlast : st.shuffleHistory.getLast? = some i := by
    rw [hsh]; exact List.getLast?_concat _
  have hdrop : st.shuffleHistory.dropLast = h := by
    rw [hsh]; exact List.dropLast_concat
  simp only [previousSong, hs, hm, if_neg h0, if_neg h1, hlast, hdrop]
  exact ⟨(playSong_proj _ _ _ _ _).1, (playSong_proj _ _ _ _ _).2.2.2⟩

lemma currentIndexOf_eq (st : PlayerState) (s : Song)
    (h : st.currentSong = some s) :
    currentIndexOf st = findIndexPath st.playlist s.path := by
  unfold currentIndexOf
  rw [h]

lemma shuffle_epoch_step (pl : List Song) (hnd : (pl.map Song.path).Nodup)
    (cs : List Int) (st : PlayerState) (hInv : ShuffleEpochInv pl cs st)
    (hlen : cs.length < pl.length) (r : Nat) (pres : Option ℚ) (vok : Bool)
    (now : Nat) :
    ShuffleEpochInv pl (cs ++ [getRandomIndex pl cs r])
      (nextSong st r pres vok now).1 ∧
    currentIndexOf (nextSong st r pres vok now).1 = getRandomIndex pl cs r := by
  obtain ⟨hpl, hmode, hnddup, hbnd, hstack, s, i, hlast, hcur, hget⟩ := hInv
  have hcs_ne : cs ≠ [] := by
    intro h
    rw [h] at hlast
    cases hlast
  have hcs1 : 1 ≤ cs.length := List.length_pos.mpr hcs_ne
  have hN2 : 2 ≤ pl.length := by omega
  have h0 : ¬ pl.length = 0 := by omega
  have h1 : ¬ pl.length = 1 := by omega
  have hi_bnd := hbnd i (List.mem_of_getLast?_eq_some hlast)
  have hfind : findIndexPath pl s.path = i := by
    rw [findIndexPath_of_get? hnd hget]
    omega
  have hhlen : st.shuffleHistory.length = cs.length - 1 := by
    rw [hstack, List.length_dropLast]
  have hnonreset :
      ¬ ((st.shuffleHistory.length : Int) ≥ (pl.length : Int) - 1) := by
    rw [hhlen]
    omega
  have hilast : cs.getLast hcs_ne = i := by
    rw [List.getLast?_eq_getLast cs hcs_ne] at hlast
    injection hlast
  have hexc : st.shuffleHistory ++ [findIndexPath pl s.path] = cs := by
    rw [hfind, hstack, ← hilast]
    exact List.dropLast_concat_getLast hcs_ne
  have hspec := getRandomIndex_spec pl (cs) r hlen
  obtain ⟨t, htj⟩ := listGetI_isSome hspec.1 hspec.2.1
  obtain ⟨-, htget⟩ := listGetI_some_iff.mp htj
  have hred : nextSong st r pres vok now =
      playSong { st with shuffleHistory := cs }
        (listGetI pl (getRandomIndex pl cs r)) pres vok now := by
    simp only [nextSong, hcur, hmode, hpl, if_neg h0, if_neg h1,
      if_neg hnonreset, hexc]
  have hpres := playSong_preserves { st with shuffleHistory := cs }
    (listGetI pl (getRandomIndex pl cs r)) pres vok now
  have hproj := playSong_proj { st with shuffleHistory := cs }
    (listGetI pl (getRandomIndex pl cs r)) pres vok now
  constructor
  · refine ⟨?_, ?_, ?_, ?_, ?_, t, getRandomIndex pl cs r, ?_, ?_, htget⟩
    · rw [hred, hpres.1]
      exact hpl
    · rw [hred, hpres.2.1]
      exact hmode
    · rw [List.nodup_append]
      refine ⟨hnddup, List.nodup_singleton _, fun a ha hb => ?_⟩
      rw [List.mem_singleton] at hb
      subst hb
      exact hspec.2.2 ha
    · intro j hj
      rcases List.mem_append.mp hj with hj | hj
      · exact hbnd j hj
      · rw [List.mem_singleton] at hj
        subst hj
        exact ⟨hspec.1, hspec.2.1⟩
    · rw [hred, hproj.2.2.2, List.dropLast_concat]
    · exact List.getLast?_concat _
    · rw [hred, hproj.1, htj]
  · rw [hred, currentIndexOf_eq _ t (by rw [hproj.1, htj]), hpres.1]
    show findIndexPath st.playlist t.path = _
    rw [hpl, findIndexPath_of_get? hnd htget]
    omega

lemma shuffle_epoch_run (pl : List Song) (hnd : (pl.map Song.path).Nodup)
    (params : List (Nat × Option ℚ × Bool × Nat)) :
    ∀ (cs : List Int) (st : PlayerState), ShuffleEpochInv pl cs st →
      cs.length + params.length ≤ pl.length →
      (cs ++ (iterateNext st params).map currentIndexOf).Nodup ∧
      (∀ i ∈ cs ++ (iterateNext st params).map currentIndexOf,
        0 ≤ i ∧ i < (pl.length : Int)) ∧
      (cs ++ (iterateNext st params).map currentIndexOf).length =
        cs.length + params.length := by
  induction params with
  | nil =>
      intro cs st hInv hle
      obtain ⟨-, -, hnddup, hbnd, -, -⟩ := hInv
      simpa [iterateNext] using ⟨hnddup, hbnd⟩
  | cons p rest ih =>
      intro cs st hInv hle
      have hlen : cs.length < pl.length := by
        simp only [List.length_cons] at hle
        omega
      obtain ⟨hInv2, hidx⟩ :=
        shuffle_epoch_step pl hnd cs st hInv hlen p.1 p.2.1 p.2.2.1 p.2.2.2
      have hrec := ih (cs ++ [getRandomIndex pl cs p.1])
        (nextSong st p.1 p.2.1 p.2.2.1 p.2.2.2).1 hInv2
        (by simp only [List.length_append, List.length_singleton,
              List.length_cons, List.length_nil] at hle ⊢; omega)
      simp only [iterateNext, List.map_cons, hidx] at *
      rw [show cs ++ getRandomIndex pl cs p.1 ::
            (iterateNext (nextSong st p.1 p.2.1 p.2.2.1 p.2.2.2).1 rest).map
              currentIndexOf =
          (cs ++ [getRandomIndex pl cs p.1]) ++
            (iterateNext (nextSong st p.1 p.2.1 p.2.2.1 p.2.2.2).1 rest).map
              currentIndexOf from by simp]
      refine ⟨hrec.1, hrec.2.1, ?_⟩
      rw [hrec.2.2]
      simp only [List.length_append, List.length_singleton, List.length_cons,
        List.length_nil]
      omega

/-- C1: counterexample — seek(-5) on a current track of duration 200 stores
positionSeconds = -5 (not the claimed clamped 0) and sends the unclamped -5 to
the engine. -/
theorem C1_counterexample :
    (seek baseState (-5)).1.currentTime = -5 ∧ (-5 : ℚ) ≠ 0 ∧
    (seek baseState (-5)).2 = [EngineCmd.seekCmd (-5)] :=
  ⟨rfl, by norm_num, rfl⟩

/-- C1 (amended): seek performs no clamping — for any current track and any
target t (also outside [0, duration]) it stores t as positionSeconds and sends
t to the engine unchanged. -/
theorem C1_seek_unclamped (st : PlayerState) (t : ℚ) (s : Song)
    (h : st.currentSong = some s) :
    (seek st t).1.currentTime = t ∧ (seek st t).2 = [EngineCmd.seekCmd t] := by
  simp [seek, h]

/-- C1 witness: the amended seek theorem at a concrete state. -/
theorem C1_seek_unclamped_witness :
    (seek baseState (-5)).1.currentTime = -5 ∧
    (seek baseState (-5)).2 = [EngineCmd.seekCmd (-5)] :=
  C1_seek_unclamped baseState (-5) songA rfl

/-- C2: counterexample — the auto-advance path and manual next() are not
identical: on a successful RepeatAll advance manual next() applies the current
volume while the auto path issues no volume command; in Linear mode at the
last index the auto path stops playback while manual next() leaves isPlaying
true; in RepeatOne the auto path records no history while manual next()
does. -/
theorem C2_counterexample :
    ((pollTick repeatAllEndState (some 200) 0 (some 100) 7).2 =
        [EngineCmd.playSongCmd "b.mp3"] ∧
      EngineCmd.setVolumeCmd (1/2) ∈
        (nextSong repeatAllEndState 0 (some 100) true 7).2) ∧
    ((pollTick linearAutoEndState (some 200) 0 (some 100) 7).1.isPlaying = false ∧
      (nextSong linearAutoEndState 0 (some 100) true 7).1.isPlaying = true) ∧
    ((pollTick repeatOneEndState (some 200) 0 (some 100) 7).1.playHistory = [] ∧
      (nextSong repeatOneEndState 0 (some 100) true 7).1.playHistory ≠ []) := by
  have hablr : ¬ ("a.mp3" = "b.mp3") := by decide
  refine ⟨⟨?_, ?_⟩, ⟨?_, ?_⟩, ⟨?_, ?_⟩⟩
  · norm_num [pollTick, repeatAllEndState, autoPlayNext, findIndexPath,
      listGetI, songA, songB, hablr]
  · norm_num [nextSong, playSong, repeatAllEndState, findIndexPath,
      listGetI, songA, songB, hablr]
  · norm_num [pollTick, linearAutoEndState, autoPlayNext, findIndexPath,
      listGetI, songA, songB, hablr]
  · norm_num [nextSong, playSong, linearAutoEndState, findIndexPath,
      listGetI, songA, songB, hablr]
  · norm_num [pollTick, repeatOneEndState, findIndexPath, listGetI, songA]
  · norm_num [nextSong, playSong, repeatOneEndState, findIndexPath, listGetI,
      songA, addToHistory]

/-- C2 (amended): in RepeatAll and Shuffle modes (current track present in the
playlist, volume command succeeding), one firing of the end-of-track
auto-advance resolves and plays the same next track as manual next() for the
same random draw, with the same resulting current track, isPlaying, history
recording and shuffle stack, for every engine play outcome; but volume
application differs — the auto-advance path never issues a volume command
while a successful manual next() does. (In RepeatOne the auto path skips the
history recording manual next() performs, and in Linear mode at the last index
the auto path stops playback while manual next() is a no-op; see the
counterexample.) -/
theorem C2_auto_manual_equiv (st : PlayerState) (s : Song) (bt : ℚ) (r : Nat)
    (pres : Option ℚ) (now : Nat)
    (hs : st.currentSong = some s)
    (hp : st.isPlaying = true)
    (hm : st.playbackMode = PlaybackMode.RepeatAll ∨
          st.playbackMode = PlaybackMode.Shuffle)
    (htrig : 0 < st.duration ∧ st.duration - 1/10 ≤ bt)
    (hlook : listGetI st.playlist (findIndexPath st.playlist s.path) = some s) :
    ((pollTick st (some bt) r pres now).1.currentSong =
      (nextSong st r pres true now).1.currentSong) ∧
    ((pollTick st (some bt) r pres now).1.isPlaying =
      (nextSong st r pres true now).1.isPlaying) ∧
    ((pollTick st (some bt) r pres now).1.playHistory =
      (nextSong st r pres true now).1.playHistory) ∧
    ((pollTick st (some bt) r pres now).1.shuffleHistory =
      (nextSong st r pres true now).1.shuffleHistory) ∧
    (∀ q, EngineCmd.setVolumeCmd q ∉ (pollTick st (some bt) r pres now).2) ∧
    (∀ d, pres = some d →
      EngineCmd.setVolumeCmd (st.volume / 100) ∈ (nextSong st r pres true now).2) := by
  obtain ⟨hc0, hcget⟩ := listGetI_some_iff.mp hlook
  obtain ⟨hclt, -⟩ := List.get?_eq_some.mp hcget
  have h0 : ¬ st.playlist.length = 0 := by omega
  have htrigB : st.duration ≤ bt + (10:ℚ)⁻¹ := by linarith [htrig.2]
  rcases hm with hm | hm
  · have hNz : (st.playlist.length : Int) ≠ 0 := by
      exact_mod_cast h0
    have hnx0 : 0 ≤ (findIndexPath st.playlist s.path + 1) % (st.playlist.length : Int) :=
      Int.emod_nonneg _ hNz
    have hnxlt : (findIndexPath st.playlist s.path + 1) % (st.playlist.length : Int)
        < (st.playlist.length : Int) :=
      Int.emod_lt_of_pos _ (by omega)
    obtain ⟨u, hu⟩ := listGetI_isSome hnx0 hnxlt
    have hredA : pollTick st (some bt) r pres now =
        autoPlayNext { st with currentTime := bt }
          (listGetI st.playlist
            ((findIndexPath st.playlist s.path + 1) % (st.playlist.length : Int)))
          pres now := by
      simp [pollTick, hs, hp, hm, htrig.1, htrig.2, htrigB]
    have hredM : nextSong st r pres true now =
        playSong st
          (listGetI st.playlist
            ((findIndexPath st.playlist s.path + 1) % (st.playlist.length : Int)))
          pres true now := by
      simp [nextSong, hs, hm, h0]
    have hproj := auto_manual_proj { st with currentTime := bt } st
      (listGetI st.playlist
        ((findIndexPath st.playlist s.path + 1) % (st.playlist.length : Int)))
      pres now rfl rfl
    rw [hredA, hredM]
    refine ⟨hproj.1, hproj.2.1, hproj.2.2.1, hproj.2.2.2,
      fun q => autoPlayNext_no_volume _ _ _ _ q, ?_⟩
    intro d hd
    rw [hd, hu, playSong_cmds_success]
    simp
  · by_cases h1 : st.playlist.length = 1
    · have hredA : pollTick st (some bt) r pres now =
          autoPlayNext { st with currentTime := bt } (some s) pres now := by
        simp [pollTick, hs, hp, hm, htrig.1, htrig.2, htrigB, h1, hlook]
      have hredM : nextSong st r pres true now =
          playSong st (some s) pres true now := by
        simp [nextSong, hs, hm, h0, h1]
      have hproj := auto_manual_proj { st with currentTime := bt } st
        (some s) pres now rfl rfl
      rw [hredA, hredM]
      refine ⟨hproj.1, hproj.2.1, hproj.2.2.1, hproj.2.2.2,
        fun q => autoPlayNext_no_volume _ _ _ _ q, ?_⟩
      intro d hd
      rw [hd, playSong_cmds_success]
      simp
    · by_cases hrst :
        (st.shuffleHistory.length : Int) ≥ (st.playlist.length : Int) - 1
      · have hne : availableIndicesOf st.playlist.length
            [findIndexPath st.playlist s.path] ≠ [] :=
          availableIndicesOf_ne_nil (by simp only [List.length_singleton]; omega)
        have hpick := randPick_available_eq st.playlist ([findIndexPath st.playlist s.path]) r hne
        have hspec := getRandomIndex_spec st.playlist ([findIndexPath st.playlist s.path]) r
          (by simp only [List.length_singleton]; omega)
        obtain ⟨t, ht⟩ := listGetI_isSome hspec.1 hspec.2.1
        have hredA : pollTick st (some bt) r pres now =
            autoPlayNext
              { st with
                  currentTime := bt,
                  shuffleHistory := [findIndexPath st.playlist s.path] }
              (listGetI st.playlist
                (getRandomIndex st.playlist [findIndexPath st.playlist s.path] r))
              pres now := by
          simp [pollTick, hs, hp, hm, htrig.1, htrig.2, htrigB, h1, hrst,
            filter_ne_eq_available, hpick]
        have hredM : nextSong st r pres true now =
            playSong
              { st with shuffleHistory := [findIndexPath st.playlist s.path] }
              (listGetI st.playlist
                (getRandomIndex st.playlist [findIndexPath st.playlist s.path] r))
              pres true now := by
          simp [nextSong, hs, hm, h0, h1, hrst]
        have hproj := auto_manual_proj
          { st with
              currentTime := bt,
              shuffleHistory := [findIndexPath st.playlist s.path] }
          { st with shuffleHistory := [findIndexPath st.playlist s.path] }
          (listGetI st.playlist
            (getRandomIndex st.playlist [findIndexPath st.playlist s.path] r))
          pres now rfl rfl
        rw [hredA, hredM]
        refine ⟨hproj.1, hproj.2.1, hproj.2.2.1, hproj.2.2.2,
          fun q => autoPlayNext_no_volume _ _ _ _ q, ?_⟩
        intro d hd
        rw [hd, ht, playSong_cmds_success]
        simp
      · have hlt : (st.shuffleHistory ++ [findIndexPath st.playlist s.path]).length
            < st.playlist.length := by
          simp only [List.length_append, List.length_singleton]
          omega
        have hne : availableIndicesOf st.playlist.length
            (st.shuffleHistory ++ [findIndexPath st.playlist s.path]) ≠ [] :=
          availableIndicesOf_ne_nil hlt
        have hpick := randPick_available_eq st.playlist (st.shuffleHistory ++ [findIndexPath st.playlist s.path]) r hne
        have hspec := getRandomIndex_spec st.playlist (st.shuffleHistory ++ [findIndexPath st.playlist s.path]) r hlt
        obtain ⟨t, ht⟩ := listGetI_isSome hspec.1 hspec.2.1
        have hredA : pollTick st (some bt) r pres now =
            autoPlayNext
              { st with
                  currentTime := bt,
                  shuffleHistory :=
                    st.shuffleHistory ++ [findIndexPath st.playlist s.path] }
              (listGetI st.playlist
                (getRandomIndex st.playlist
                  (st.shuffleHistory ++ [findIndexPath st.playlist s.path]) r))
              pres now := by
          simp [pollTick, hs, hp, hm, htrig.1, htrig.2, htrigB, h1, hrst,
            filter_and_eq_available, hpick]
          have hfeq : List.filter
              (fun i => !decide (i ∈ st.shuffleHistory) &&
                i != findIndexPath st.playlist s.path)
              (List.map Int.ofNat (List.range st.playlist.length)) =
              availableIndicesOf st.playlist.length
                (st.shuffleHistory ++ [findIndexPath st.playlist s.path]) := by
            rw [← filter_and_eq_available]
            apply List.filter_congr
            intro i _
            simp [List.contains, List.elem_eq_mem]
          rw [hfeq, hpick]
          rfl
        have hredM : nextSong st r pres true now =
            playSong
              { st with shuffleHistory :=
                  st.shuffleHistory ++ [findIndexPath st.playlist s.path] }
              (listGetI st.playlist
                (getRandomIndex st.playlist
                  (st.shuffleHistory ++ [findIndexPath st.playlist s.path]) r))
              pres true now := by
          simp [nextSong, hs, hm, h0, h1, hrst]
        have hproj := auto_manual_proj
          { st with
              currentTime := bt,
              shuffleHistory :=
                st.shuffleHistory ++ [findIndexPath st.playlist s.path] }
          { st with shuffleHistory :=
              st.shuffleHistory ++ [findIndexPath st.playlist s.path] }
          (listGetI st.playlist
            (getRandomIndex st.playlist
              (st.shuffleHistory ++ [findIndexPath st.playlist s.path]) r))
          pres now rfl rfl
        rw [hredA, hredM]
        refine ⟨hproj.1, hproj.2.1, hproj.2.2.1, hproj.2.2.2,
          fun q => autoPlayNext_no_volume _ _ _ _ q, ?_⟩
        intro d hd
        rw [hd, ht, playSong_cmds_success]
        simp

/-- C2 witness: the amended equivalence theorem at a concrete RepeatAll state. -/
theorem C2_auto_manual_equiv_witness :
    (pollTick repeatAllEndState (some 200) 0 (some 100) 7).1.currentSong =
      (nextSong repeatAllEndState 0 (some 100) true 7).1.currentSong :=
  (C2_auto_manual_equiv repeatAllEndState songA 200 0 (some 100) 7 rfl rfl
    (Or.inl rfl) (by norm_num [repeatAllEndState]) (by decide)).1

/-- C3: in Shuffle mode, starting from an empty shuffle bag with a current
track at index c in a duplicate-free playlist of N ≥ 2 tracks, the N-1
following next() calls — for every sequence of random draws and engine
replies — produce the chain of current-track indices c, c₁, …, c_{N-1} which
is a permutation of {0, …, N-1}: each next() yields an index different from
the just-played one and no index repeats until all N indices have been
produced once (shuffle without replacement over one epoch). -/
theorem C3_shuffle_without_replacement (st : PlayerState) (s : Song) (c : Nat)
    (params : List (Nat × Option ℚ × Bool × Nat))
    (hnd : (st.playlist.map Song.path).Nodup)
    (hm : st.playbackMode = PlaybackMode.Shuffle)
    (hsh : st.shuffleHistory = [])
    (hs : st.currentSong = some s)
    (hgs : st.playlist.get? c = some s)
    (hN : 2 ≤ st.playlist.length)
    (hlen : params.length = st.playlist.length - 1) :
    ((c : Int) :: (iterateNext st params).map currentIndexOf).Perm
      ((List.range st.playlist.length).map Int.ofNat) := by
  have hclt : c < st.playlist.length := (List.get?_eq_some.mp hgs).1
  have hInv : ShuffleEpochInv st.playlist [(c : Int)] st := by
    refine ⟨rfl, hm, List.nodup_singleton _, ?_, by simp [hsh], s, (c : Int),
      rfl, hs, by simpa using hgs⟩
    intro i hi
    rw [List.mem_singleton] at hi
    subst hi
    constructor
    · exact Int.ofNat_nonneg c
    · exact_mod_cast hclt
  have hrun := shuffle_epoch_run st.playlist hnd params [(c : Int)] st hInv
    (by simp only [List.length_singleton]; omega)
  have hchain : (c : Int) :: (iterateNext st params).map currentIndexOf =
      [(c : Int)] ++ (iterateNext st params).map currentIndexOf := by
    simp
  rw [hchain]
  have hsub : ([(c : Int)] ++ (iterateNext st params).map currentIndexOf) ⊆
      (List.range st.playlist.length).map Int.ofNat := by
    intro i hi
    obtain ⟨h0i, hlti⟩ := hrun.2.1 i hi
    refine List.mem_map.mpr ⟨i.toNat, List.mem_range.mpr (by omega), ?_⟩
    simp only [Int.ofNat_eq_coe]
    omega
  refine (List.subperm_of_subset hrun.1 hsub).perm_of_length_le ?_
  rw [hrun.2.2]
  simp only [List.length_map, List.length_range, List.length_singleton]
  omega

/-- C3 witness: a full epoch on a concrete two-track shuffle state. -/
theorem C3_shuffle_without_replacement_witness :
    (((0 : Nat) : Int) :: (iterateNext shuffleStartState
        [(0, some 1, true, 0)]).map currentIndexOf).Perm
      ((List.range shuffleStartState.playlist.length).map Int.ofNat) :=
  C3_shuffle_without_replacement shuffleStartState songA 0
    [(0, some 1, true, 0)] (by decide) rfl rfl rfl (by decide) (by decide) rfl

/-- C4: counterexample — replaying songB, whose entry sits behind songA's,
updates it in place: the front of the log is still songA's entry; the entry is
not moved to the front as the claim states. -/
theorem C4_counterexample :
    addToHistory [entryA, entryB] songB 5 =
      [entryA, { song := songB, playedAt := 5, playCount := 2 }] ∧
    [entryA, ({ song := songB, playedAt := 5, playCount := 2 } : PlayHistoryEntry)] ≠
      [{ song := songB, playedAt := 5, playCount := 2 }, entryA] := by
  constructor
  · decide
  · decide

/-- C4 (amended): recording a track whose path already has an entry updates
that entry in place — playCount incremented, lastPlayedAt refreshed — keeping
its position in the log (it is not moved to the front); recording a new track
prepends an entry with playCount 1 and truncates to the first 100 entries;
hence a log of length at most 100 stays of length at most 100. -/
theorem C4_record_characterisation (hist : List PlayHistoryEntry) (s : Song)
    (now : Nat) (hlen : hist.length ≤ 100) :
    (addToHistory hist s now).length ≤ 100 ∧
    ((hist.any fun e => e.song.path = s.path) = true →
      addToHistory hist s now =
        hist.map (fun e =>
          if e.song.path = s.path then
            { e with playCount := e.playCount + 1, playedAt := now }
          else e) ∧
      (addToHistory hist s now).map (fun e => e.song.path) =
        hist.map (fun e => e.song.path)) ∧
    ((hist.any fun e => e.song.path = s.path) = false →
      addToHistory hist s now =
        (({ song := s, playedAt := now, playCount := 1 } : PlayHistoryEntry)
          :: hist).take 100) := by
  by_cases hx : (hist.any fun e => e.song.path = s.path) = true
  · refine ⟨?_, fun _ => ⟨by simp [addToHistory, hx], ?_⟩, ?_⟩
    · simpa [addToHistory, hx] using hlen
    · simp only [addToHistory, hx, if_true, List.map_map]
      refine List.map_congr_left (fun e _ => ?_)
      by_cases he : e.song.path = s.path <;> simp [he]
    · intro hc
      rw [hx] at hc
      exact Bool.noConfusion hc
  · have hx2 : (hist.any fun e => e.song.path = s.path) = false := by
      simp only [Bool.not_eq_true] at hx
      exact hx
    refine ⟨?_, ?_, fun _ => by simp [addToHistory, hx2]⟩
    · simp only [addToHistory, hx2, Bool.false_eq_true, if_false]
      exact List.length_take_le _ _
    · intro hc
      rw [hc] at hx2
      exact Bool.noConfusion hx2

/-- C4 witness: the characterisation applied to a concrete two-entry log. -/
theorem C4_record_characterisation_witness :
    (addToHistory [entryA, entryB] songB 5).length ≤ 100 ∧
    (addToHistory [entryA, entryB] songB 5).map (fun e => e.song.path) =
      ["a.mp3", "b.mp3"] := by
  have h := C4_record_characterisation [entryA, entryB] songB 5 (by decide)
  refine ⟨h.1, ?_⟩
  rw [(h.2.1 (by decide)).2]
  decide

/-- C5: counterexample — for a track with declared metadata duration 300 and
engine-reported duration 250, a successful play sets durationSeconds to the
metadata value 300, not the engine's authoritative 250 as claimed. -/
theorem C5_counterexample :
    (playSong baseState (some songC) (some 250) true 0).1.duration = 300 ∧
    (300 : ℚ) ≠ 250 := by
  constructor
  · decide
  · norm_num

/-- C5 (amended): on a fully successful play the track's declared metadata
duration, when present and nonzero, takes priority; the engine-reported
duration is only a fallback for a missing or zero (falsy) metadata duration;
positionSeconds is reset to 0 and isPlaying set to true. -/
theorem C5_play_duration_priority (st : PlayerState) (s : Song) (d : ℚ) (now : Nat) :
    (playSong st (some s) (some d) true now).1.currentTime = 0 ∧
    (playSong st (some s) (some d) true now).1.isPlaying = true ∧
    (∀ m : ℚ, s.metaDuration = some m → m ≠ 0 →
      (playSong st (some s) (some d) true now).1.duration = m) ∧
    (s.metaDuration = none →
      (playSong st (some s) (some d) true now).1.duration = d) ∧
    (s.metaDuration = some 0 →
      (playSong st (some s) (some d) true now).1.duration = d) := by
  refine ⟨rfl, rfl, fun m hm hm0 => ?_, fun hm => ?_, fun hm => ?_⟩ <;>
    simp [playSong, jsDurOr, hm]
  exact fun h => absurd h hm0

/-- C5 witness: the amended duration-priority theorem at a concrete track with
metadata duration 300 and engine duration 250. -/
theorem C5_play_duration_priority_witness :
    (playSong baseState (some songC) (some 250) true 0).1.duration = 300 :=
  (C5_play_duration_priority baseState songC 250 0).2.2.1 300 rfl (by norm_num)

/-- C6: counterexample — manual next() in Linear mode at the last playlist
index while playing leaves isPlaying = true (the claim says playback stops
with isPlaying = false); the state is entirely unchanged. -/
theorem C6_counterexample :
    (nextSong linearEndState 0 (some 1) true 0).1.isPlaying = true ∧
    (nextSong linearEndState 0 (some 1) true 0).1 = linearEndState := by
  constructor
  · decide
  · decide

/-- C6 (amended): manual next() in Linear mode at the last playlist index is a
complete no-op — currentTrackIndex and isPlaying are both left unchanged (in
particular isPlaying is not forced to false; only the automatic end-of-track
handler stops playback) and no engine command is issued. -/
theorem C6_linear_next_at_end (st : PlayerState) (s : Song) (r : Nat)
    (pres : Option ℚ) (vok : Bool) (now : Nat)
    (hs : st.currentSong = some s)
    (hm : st.playbackMode = PlaybackMode.Linear)
    (hidx : ¬ findIndexPath st.playlist s.path < (st.playlist.length : Int) - 1) :
    nextSong st r pres vok now = (st, []) := by
  by_cases h0 : st.playlist.length = 0
  · simp [nextSong, hs, h0]
  · simp [nextSong, hs, h0, hm, hidx]

/-- C6 witness: the amended no-op theorem at the concrete last-index state. -/
theorem C6_linear_next_at_end_witness :
    nextSong linearEndState 0 (some 1) true 0 = (linearEndState, []) :=
  C6_linear_next_at_end linearEndState songB 0 (some 1) true 0 rfl rfl (by decide)

/-- C7: counterexample — togglePlay while playing with a failing engine
command leaves isPlaying = true, contradicting the claimed downgrade to
isPlaying = false. -/
theorem C7_counterexample :
    baseState.isPlaying = true ∧ baseState.currentSong = some songA ∧
    (togglePlay baseState false).1.isPlaying = true := by
  refine ⟨rfl, rfl, ?_⟩
  decide

/-- C7 (amended): every engine-command failure is caught inside the operation
(each operation is total and returns a state); a failed play — including a
failure of the follow-up volume command — yields isPlaying = false, but failed
togglePlay, seek and setVolume commands leave isPlaying unchanged rather than
forcing it to false. -/
theorem C7_failures_caught (st : PlayerState) (s : Song) (vok : Bool)
    (now : Nat) (d t v : ℚ) :
    (playSong st (some s) none vok now).1.isPlaying = false ∧
    (playSong st (some s) (some d) false now).1.isPlaying = false ∧
    (togglePlay st false).1 = st ∧
    (seek st t).1.isPlaying = st.isPlaying ∧
    (seekSync (seek st t).1 none).isPlaying = st.isPlaying ∧
    (handleVolumeChange st v false).1.isPlaying = st.isPlaying := by
  refine ⟨rfl, rfl, ?_, ?_, ?_, rfl⟩
  · cases h : st.currentSong <;> simp [togglePlay, h]
  · cases h : st.currentSong <;> simp [seek, h]
  · cases h : st.currentSong <;> simp [seek, seekSync, h]

/-- C8: counterexample — setVolume(150) stores 150 (no clamping to [0,100])
and forwards 150/100 = 3/2 (not a normalized fraction of a clamped value) to
the engine. -/
theorem C8_counterexample :
    (handleVolumeChange baseState 150 true).1.volume = 150 ∧ (150 : ℚ) ≠ 100 ∧
    (handleVolumeChange baseState 150 true).2 = [EngineCmd.setVolumeCmd (3/2)] := by
  refine ⟨rfl, by norm_num, ?_⟩
  show [EngineCmd.setVolumeCmd ((150 : ℚ) / 100)] = [EngineCmd.setVolumeCmd (3/2)]
  norm_num

/-- C8 (amended): setVolume stores the requested value without clamping and
forwards value/100 to the engine; an engine failure does not roll back the
stored displayed volume. -/
theorem C8_setVolume_unclamped (st : PlayerState) (v : ℚ) (ok : Bool) :
    (handleVolumeChange st v ok).1.volume = v ∧
    (handleVolumeChange st v ok).2 = [EngineCmd.setVolumeCmd (v / 100)] ∧
    (handleVolumeChange st v false).1.volume =
      (handleVolumeChange st v true).1.volume :=
  ⟨rfl, rfl, rfl⟩

/-- C9: counterexample — in Shuffle mode with a nonempty shuffle stack but a
one-track playlist, previous() does not pop the stack: it replays the current
track through the length-1 early path and the stack is still [0] afterwards,
whereas popping the most recently pushed index would have left []. -/
theorem C9_counterexample :
    singleShuffleState.shuffleHistory = [0] ∧
    (previousSong singleShuffleState 0 (some 1) true 0).1.shuffleHistory = [0] ∧
    ([0] : List Int) ≠ [] := by
  refine ⟨rfl, ?_, by simp⟩
  simp [previousSong, singleShuffleState, playSong, songA]

/-- C9 (amended): in Shuffle mode with a playlist of at least two tracks: with
a nonempty shuffle stack, previous() pops the most recently pushed index and
plays that playlist entry instead of drawing a new random index; with an empty
stack it plays a random pick excluding (hence different from) the current
index; and previous() invoked immediately after a shuffle next() returns to
the track that was playing before that next(). The one-track case is excluded:
there previous() replays the current track without popping the stack. -/
theorem C9_shuffle_previous (st : PlayerState) (s : Song) (r r2 : Nat)
    (pres pres2 : Option ℚ) (vok vok2 : Bool) (now now2 : Nat)
    (hs : st.currentSong = some s)
    (hm : st.playbackMode = PlaybackMode.Shuffle)
    (hN : 2 ≤ st.playlist.length)
    (hlook : listGetI st.playlist (findIndexPath st.playlist s.path) = some s) :
    (∀ h i, st.shuffleHistory = h ++ [i] →
      (previousSong st r pres vok now).1.currentSong = listGetI st.playlist i ∧
      (previousSong st r pres vok now).1.shuffleHistory = h) ∧
    (st.shuffleHistory = [] →
      (previousSong st r pres vok now).1.currentSong =
        listGetI st.playlist
          (getRandomIndex st.playlist [findIndexPath st.playlist s.path] r) ∧
      getRandomIndex st.playlist [findIndexPath st.playlist s.path] r ≠
        findIndexPath st.playlist s.path) ∧
    (previousSong (nextSong st r pres vok now).1 r2 pres2 vok2 now2).1.currentSong
      = some s := by
  have h0 : ¬ st.playlist.length = 0 := by omega
  have h1 : ¬ st.playlist.length = 1 := by omega
  refine ⟨fun h i hsh => previousSong_pop st s h i r pres vok now hs hm hN hsh,
    ?_, ?_⟩
  · intro hsh
    have hlast : st.shuffleHistory.getLast? = none := by rw [hsh]; rfl
    have hspec := getRandomIndex_spec st.playlist ([findIndexPath st.playlist s.path]) r
      (by simp only [List.length_singleton]; omega)
    simp only [previousSong, hs, hm, if_neg h0, if_neg h1, hlast]
    refine ⟨(playSong_proj _ _ _ _ _).1, fun heq => hspec.2.2 ?_⟩
    rw [heq]
    exact List.mem_singleton.mpr rfl
  · by_cases hrst :
      (st.shuffleHistory.length : Int) ≥ (st.playlist.length : Int) - 1
    · have hspec := getRandomIndex_spec st.playlist ([findIndexPath st.playlist s.path]) r
        (by simp only [List.length_singleton]; omega)
      obtain ⟨t, ht⟩ := listGetI_isSome hspec.1 hspec.2.1
      have hnext : nextSong st r pres vok now =
          playSong { st with shuffleHistory := [findIndexPath st.playlist s.path] }
            (listGetI st.playlist
              (getRandomIndex st.playlist [findIndexPath st.playlist s.path] r))
            pres vok now := by
        simp only [nextSong, hs, hm, if_neg h0, if_neg h1, if_pos hrst]
      rw [hnext, ht]
      have hcur := (playSong_proj
        { st with shuffleHistory := [findIndexPath st.playlist s.path] }
        (some t) pres vok now).1
      have hpop := previousSong_pop _ t []
        (findIndexPath st.playlist s.path) r2 pres2 vok2 now2 hcur
        (by rw [(playSong_preserves _ _ _ _ _).2.1]; exact hm)
        (by rw [(playSong_preserves _ _ _ _ _).1]; exact hN)
        (by rw [(playSong_proj _ _ _ _ _).2.2.2]; rfl)
      rw [hpop.1, (playSong_preserves _ _ _ _ _).1]
      exact hlook
    · have hlt : (st.shuffleHistory ++ [findIndexPath st.playlist s.path]).length
          < st.playlist.length := by
        simp only [List.length_append, List.length_singleton]
        omega
      have hspec := getRandomIndex_spec st.playlist (st.shuffleHistory ++ [findIndexPath st.playlist s.path]) r hlt
      obtain ⟨t, ht⟩ := listGetI_isSome hspec.1 hspec.2.1
      have hnext : nextSong st r pres vok now =
          playSong { st with shuffleHistory :=
              st.shuffleHistory ++ [findIndexPath st.playlist s.path] }
            (listGetI st.playlist
              (getRandomIndex st.playlist
                (st.shuffleHistory ++ [findIndexPath st.playlist s.path]) r))
            pres vok now := by
        simp only [nextSong, hs, hm, if_neg h0, if_neg h1, if_neg hrst]
      rw [hnext, ht]
      have hcur := (playSong_proj
        { st with shuffleHistory :=
            st.shuffleHistory ++ [findIndexPath st.playlist s.path] }
        (some t) pres vok now).1
      have hpop := previousSong_pop _ t st.shuffleHistory
        (findIndexPath st.playlist s.path) r2 pres2 vok2 now2 hcur
        (by rw [(playSong_preserves _ _ _ _ _).2.1]; exact hm)
        (by rw [(playSong_preserves _ _ _ _ _).1]; exact hN)
        (by rw [(playSong_proj _ _ _ _ _).2.2.2])
      rw [hpop.1, (playSong_preserves _ _ _ _ _).1]
      exact hlook

/-- C9 witness: next() then previous() on a concrete two-track shuffle state
returns to the original track. -/
theorem C9_shuffle_previous_witness :
    (previousSong (nextSong shuffleStartState 0 (some 1) true 0).1
      0 (some 1) true 0).1.currentSong = some songA :=
  (C9_shuffle_previous shuffleStartState songA 0 0 (some 1) (some 1) true true
    0 0 rfl rfl (by decide) (by decide)).2.2

/-- C10: playSong sets the current track before issuing the engine command, so
a rejected play leaves the requested (failed) track as the current track
together with isPlaying = false — the previously playing track is not
restored. -/
theorem C10_play_failure_keeps_requested_track (st : PlayerState) (s : Song)
    (vok : Bool) (now : Nat) :
    (playSong st (some s) none vok now).1.currentSong = some s ∧
    (playSong st (some s) none vok now).1.isPlaying = false ∧
    (playSong st (some s) none vok now).2 = [EngineCmd.playSongCmd s.path] :=
  ⟨rfl, rfl, rfl⟩

end MusicPlayer
